import Mathlib

/-!
Verification of the schedule-bot core (`src/bot.py`) against its
natural-language specification.

The Python source is shallowly embedded below:
* a schedule row (`ScheduleRecord`) carries the six columns
  `Kun, Jupliq, Topar, Pan, Oqitiwshi, Kabinet` of the persisted tables;
  every value is a string (pandas frames are coerced with `astype(str)`
  before the operations modelled here);
* a snapshot is a `List ScheduleRecord` in frame order;
* a spreadsheet (`Sheet`) is a value-by-(row, column) map together with
  its list of merged rectangular regions; a non-anchor cell of a merged
  region reads as `none`, as in openpyxl;
* Python truthiness on an optional cell value is `(v.getD "") ≠ ""`.
-/

/-- Record layout of the `original_schedule` / `changes_schedule` tables
(`bot.py` `init_db`, `process_course`): day name, pair index, group label,
subject, teacher, room. -/
structure ScheduleRecord where
  Kun : String
  Jupliq : String
  Topar : String
  Pan : String
  Oqitiwshi : String
  Kabinet : String
deriving DecidableEq, Repr

/-- Leading and trailing whitespace removal on a character list. -/
def trim_chars (l : List Char) : List Char :=
  ((l.dropWhile Char.isWhitespace).reverse.dropWhile Char.isWhitespace).reverse

/-- Python `str.strip()`: drop leading and trailing whitespace. -/
def py_strip (s : String) : String := String.mk (trim_chars s.data)

/-- The `.astype(str).str.strip()` normalisation `notify_users` applies to the
`Oqitiwshi` and `Topar` columns of both frames before diffing
(`bot.py:922-925`). -/
def strip_record (r : ScheduleRecord) : ScheduleRecord :=
  { r with Oqitiwshi := py_strip r.Oqitiwshi, Topar := py_strip r.Topar }

/-- pandas `DataFrame.drop_duplicates(keep=False)` on the concatenated frame
(`bot.py:926`): keep, in order, exactly the rows whose full-row value occurs
exactly once in the whole frame. -/
def drop_duplicates_keep_false (l : List ScheduleRecord) : List ScheduleRecord :=
  l.filter (fun r => l.count r == 1)

/-- The changed-row set `changes = pd.concat([old_df, new_df]).drop_duplicates(keep=False)`
of `notify_users` (`bot.py:926`), after the per-column strips. -/
def notify_changes (old new : List ScheduleRecord) : List ScheduleRecord :=
  drop_duplicates_keep_false (old.map strip_record ++ new.map strip_record)

/-- Python `str.split('-')` on a character list: split at every dash,
keeping empty fragments (`"".split('-') == [""]`). -/
def split_dash : List Char → List Char → List String
  | [], cur => [String.mk cur.reverse]
  | c :: rest, cur =>
    if c = '-' then String.mk cur.reverse :: split_dash rest []
    else split_dash rest (c :: cur)

/-- `parse_groups` (`bot.py:698-701`): a group label is split on `'-'` into its
fragments (the non-string branch of the Python function is unreachable for the
string-valued columns modelled here). -/
def parse_groups (group_str : String) : List String := split_dash group_str.data []

/-- The dictionary `GROUP_UNIONS` (`bot.py:263-279`), in source order:
canonical union name to list of raw group labels. -/
def GROUP_UNIONS : List (String × List String) := [
  ("101", ["101"]), ("102", ["102"]), ("103", ["103"]), ("104", ["104"]), ("105", ["105"]),
  ("106", ["106"]), ("107", ["107"]), ("108", ["108"]), ("109", ["109"]), ("110", ["110"]),
  ("111", ["111"]), ("112", ["112"]), ("113", ["113"]), ("201", ["201"]), ("202", ["202"]),
  ("203", ["203"]), ("204", ["204"]), ("205", ["205"]), ("206", ["206"]), ("207", ["207"]),
  ("208", ["208"]), ("209", ["209"]), ("210", ["210"]), ("301", ["301"]), ("303", ["303"]),
  ("304", ["304"]), ("305", ["305"]), ("4G", ["4G"]), ("4D", ["4D"]), ("4E", ["4E"]), ("4J", ["4J"]),
  ("4Z", ["4Z"]), ("4I", ["4I"]), ("4K", ["4K"]),
  ("101-102", ["101", "102"]), ("103-104", ["103", "104"]), ("105-106", ["105", "106"]),
  ("107-108", ["107", "108"]), ("109-110", ["109", "110"]), ("201-202", ["201", "202"]),
  ("201-206", ["201", "202", "203", "204", "205", "206"]),
  ("201-202-203-204-205-206", ["201", "202", "203", "204", "205", "206"]),
  ("207-208", ["207", "208"]), ("207-208-209", ["207", "208", "209"]), ("303-304", ["303", "304"]),
  ("4G-4J", ["4G", "4J"]), ("4Z-4I", ["4Z", "4I"]), ("4G-4D-4E-4J", ["4G", "4D", "4E", "4J"]),
  ("101-102-103-104-112", ["101", "102", "103", "104", "112"]),
  ("105-106-107-108-109-110-113", ["105", "106", "107", "108", "109", "110", "113"])]

/-- The affected-set computation of `notify_users` (`bot.py:917-933`): when
either frame is empty the function returns before comparing, so no affected
sets arise; otherwise the teacher column values of the changed rows form
`affected_teachers` and the dash-fragments of the group column values form
`affected_groups` (both built as Python sets, modelled by `dedup`). -/
def notify_diff (old new : List ScheduleRecord) : List String × List String :=
  if old = [] ∨ new = [] then ([], [])
  else
    let changes := notify_changes old new
    ((changes.map (fun r => r.Oqitiwshi)).dedup,
     ((changes.map (fun r => r.Topar)).dedup.flatMap parse_groups).dedup)

/-- Concrete record used in counterexamples: an ordinary row. -/
def rec_math : ScheduleRecord :=
  ⟨"DUYSEMBI", "1", "101", "Matematika", "Tajieva A", "204"⟩

/-- Concrete record used in counterexamples: a second, distinct row. -/
def rec_eng : ScheduleRecord :=
  ⟨"DUYSEMBI", "2", "103", "Inglis tili", "Arzieva B", "305"⟩

/-- Concrete record used in counterexamples: a row whose group is the union
label `"201-206"` and whose teacher is the `"JOQ"` sentinel. -/
def rec_union : ScheduleRecord :=
  ⟨"JUMA", "3", "201-206", "Fizika", "JOQ", "101"⟩

/-- C1 (counterexample): with `old = [rec_math, rec_math]` and
`new = [rec_eng]` (both non-empty), `rec_math` occurs with different counts in
the two snapshots (2 versus 0), yet `drop_duplicates(keep=False)` drops every
copy of it, so it is not reported as a change and its teacher is not affected;
the claim that any record whose count differs is reported as a change is
therefore false on the code. -/
theorem C1_change_detector_counterexample :
    ([rec_math, rec_math] : List ScheduleRecord) ≠ [] ∧
    ([rec_eng] : List ScheduleRecord) ≠ [] ∧
    [rec_math, rec_math].count rec_math ≠ [rec_eng].count rec_math ∧
    rec_math ∉ notify_changes [rec_math, rec_math] [rec_eng] ∧
    rec_math.Oqitiwshi ∉ (notify_diff [rec_math, rec_math] [rec_eng]).1 := by
  decide

/-- C1 (amended): for non-empty snapshots, a record is reported as a change
iff it occurs exactly once in the concatenation of the two (column-stripped)
snapshots; in particular a record present in both snapshots is never
reported.  A record whose count differs but totals more than one occurrence
across both snapshots (for example a row duplicated on one side only) is not
reported. -/
theorem C1_change_detector_amended (old new : List ScheduleRecord)
    (r : ScheduleRecord) (h1 : old ≠ []) (h2 : new ≠ []) :
    (r ∈ notify_changes old new ↔
      (old.map strip_record ++ new.map strip_record).count r = 1) ∧
    (r ∈ old.map strip_record → r ∈ new.map strip_record →
      r ∉ notify_changes old new) := by
  have hmem_iff : r ∈ notify_changes old new ↔
      (old.map strip_record ++ new.map strip_record).count r = 1 := by
    unfold notify_changes drop_duplicates_keep_false
    rw [List.mem_filter]
    constructor
    · rintro ⟨-, hc⟩
      simpa using hc
    · intro hc
      have hpos : 0 < (old.map strip_record ++ new.map strip_record).count r := by
        omega
      exact ⟨List.count_pos_iff.mp hpos, by simpa using hc⟩
  refine ⟨hmem_iff, ?_⟩
  intro ho hn hmem
  have hc := hmem_iff.mp hmem
  have hco : 0 < (old.map strip_record).count r := List.count_pos_iff.mpr ho
  have hcn : 0 < (new.map strip_record).count r := List.count_pos_iff.mpr hn
  rw [List.count_append] at hc
  omega

/-- C1 (witness). -/
theorem C1_change_detector_witness :
    rec_union ∈ notify_changes [rec_math] [rec_union] ↔
      ([rec_math].map strip_record ++ [rec_union].map strip_record).count rec_union = 1 :=
  (C1_change_detector_amended [rec_math] [rec_union] rec_union
    (by decide) (by decide)).1

/-- C2 (counterexample): with the single changed pair `rec_math` / `rec_union`,
the changed row `rec_union` has group `"201-206"`, whose `GROUP_UNIONS` entry
contains the raw label `"202"`; yet `"202"` is not among the affected groups,
because the code splits the group string on `'-'` instead of expanding it
through the table.  Moreover the sentinel teacher value `"JOQ"` of that row
is included in the affected teachers rather than excluded. -/
theorem C2_affected_sets_counterexample :
    rec_union ∈ notify_changes [rec_math] [rec_union] ∧
    (GROUP_UNIONS.find? (fun e => e.1 == "201-206")).map Prod.snd =
      some ["201", "202", "203", "204", "205", "206"] ∧
    "202" ∉ (notify_diff [rec_math] [rec_union]).2 ∧
    "JOQ" ∈ (notify_diff [rec_math] [rec_union]).1 := by
  decide

/-- C2 (amended): for non-empty snapshots, the affected teachers are exactly
the teacher field values of the changed records (the `"JOQ"` sentinel is not
excluded), and the affected groups are exactly the fragments obtained by
splitting the group field of a changed record on `'-'` (`parse_groups`),
not the constituents of a `GROUP_UNIONS` expansion. -/
theorem C2_affected_sets_amended (old new : List ScheduleRecord)
    (t g : String) (h1 : old ≠ []) (h2 : new ≠ []) :
    (t ∈ (notify_diff old new).1 ↔
      ∃ r ∈ notify_changes old new, r.Oqitiwshi = t) ∧
    (g ∈ (notify_diff old new).2 ↔
      ∃ r ∈ notify_changes old new, g ∈ parse_groups r.Topar) := by
  have hif : ¬ (old = [] ∨ new = []) := by
    rintro (h | h) <;> [exact h1 h; exact h2 h]
  constructor
  · simp [notify_diff, hif, List.mem_dedup, List.mem_map]
  · simp only [notify_diff, if_neg hif, List.mem_dedup, List.mem_flatMap,
      List.mem_map]
    constructor
    · rintro ⟨s, ⟨r, hr, rfl⟩, hg⟩
      exact ⟨r, hr, hg⟩
    · rintro ⟨r, hr, hg⟩
      exact ⟨r.Topar, ⟨r, hr, rfl⟩, hg⟩

/-- C2 (witness). -/
theorem C2_affected_sets_witness :
    "201" ∈ (notify_diff [rec_math] [rec_union]).2 ↔
      ∃ r ∈ notify_changes [rec_math] [rec_union], "201" ∈ parse_groups r.Topar :=
  (C2_affected_sets_amended [rec_math] [rec_union] "JOQ" "201"
    (by decide) (by decide)).2

/-- C8: diffing a snapshot against itself reports no affected teachers or
groups (every row occurs at least twice in the concatenation, so
`drop_duplicates(keep=False)` drops everything), and diffing when either side
is empty returns before comparing, likewise yielding empty affected sets; a
first-ever upload is never reported as a mass change. -/
theorem C8_diff_emptiness (S : List ScheduleRecord) :
    notify_diff S S = ([], []) ∧
    notify_diff [] S = ([], []) ∧
    notify_diff S [] = ([], []) := by
  refine ⟨?_, by simp [notify_diff], by simp [notify_diff]⟩
  by_cases h : S = []
  · simp [notify_diff, h]
  · have hch : notify_changes S S = [] := by
      unfold notify_changes drop_duplicates_keep_false
      rw [List.filter_eq_nil_iff]
      intro r hr
      have hmem : r ∈ S.map strip_record := by
        rcases List.mem_append.mp hr with h' | h' <;> exact h'
      have hpos : 0 < (S.map strip_record).count r := List.count_pos_iff.mpr hmem
      rw [List.count_append]
      simp only [beq_iff_eq]
      omega
    have hif : ¬ (S = [] ∨ S = []) := by
      rintro (h' | h') <;> exact h h'
    simp [notify_diff, hif, hch]

/-- Code-point comparison of character lists: Python compares strings
lexicographically by code point, which backs `sorted(group_list)` in
`get_union_name` (`bot.py:447`). -/
def chars_le : List Char → List Char → Bool
  | [], _ => true
  | _ :: _, [] => false
  | a :: as, b :: bs => if a = b then chars_le as bs else decide (a.toNat < b.toNat)

/-- The order relation on strings induced by `chars_le`. -/
def str_le_rel (a b : String) : Prop := chars_le a.data b.data = true

instance : DecidableRel str_le_rel := fun a b =>
  inferInstanceAs (Decidable (chars_le a.data b.data = true))

lemma char_eq_of_toNat_eq {a b : Char} (h : a.toNat = b.toNat) : a = b :=
  Char.ext (UInt32.ext h)

lemma chars_le_total : ∀ a b : List Char, chars_le a b = true ∨ chars_le b a = true
  | [], _ => Or.inl rfl
  | _ :: _, [] => Or.inr rfl
  | a :: as, b :: bs => by
    by_cases hab : a = b
    · subst hab
      simpa [chars_le] using chars_le_total as bs
    · have hba : b ≠ a := fun h => hab h.symm
      have hne : a.toNat ≠ b.toNat := fun h => hab (char_eq_of_toNat_eq h)
      rcases Nat.lt_or_ge a.toNat b.toNat with h | h
      · left
        simp [chars_le, hab, h]
      · have hlt : b.toNat < a.toNat := by omega
        right
        simp [chars_le, hba, hlt]

lemma chars_le_trans : ∀ a b c : List Char,
    chars_le a b = true → chars_le b c = true → chars_le a c = true
  | [], _, _, _, _ => rfl
  | _ :: _, [], _, h1, _ => by simp [chars_le] at h1
  | _ :: _, _ :: _, [], _, h2 => by simp [chars_le] at h2
  | x :: xs, y :: ys, z :: zs, h1, h2 => by
    by_cases hxy : x = y <;> by_cases hyz : y = z
    · subst hxy; subst hyz
      simp only [chars_le, if_pos rfl] at h1 h2 ⊢
      exact chars_le_trans _ _ _ h1 h2
    · subst hxy
      have hxz : x ≠ z := hyz
      simp only [chars_le, if_neg hyz, decide_eq_true_eq] at h2 ⊢
      exact h2
    · subst hyz
      simp only [chars_le, if_neg hxy, decide_eq_true_eq] at h1 ⊢
      exact h1
    · simp only [chars_le, if_neg hxy, decide_eq_true_eq] at h1
      simp only [chars_le, if_neg hyz, decide_eq_true_eq] at h2
      have hlt : x.toNat < z.toNat := by omega
      have hxz : x ≠ z := fun h => by subst h; omega
      simp only [chars_le, if_neg hxz, decide_eq_true_eq]
      exact hlt

lemma chars_le_antisymm : ∀ a b : List Char,
    chars_le a b = true → chars_le b a = true → a = b
  | [], [], _, _ => rfl
  | [], _ :: _, _, h2 => by simp [chars_le] at h2
  | _ :: _, [], h1, _ => by simp [chars_le] at h1
  | x :: xs, y :: ys, h1, h2 => by
    by_cases hxy : x = y
    · subst hxy
      simp only [chars_le, if_pos rfl] at h1 h2
      rw [chars_le_antisymm _ _ h1 h2]
    · have hyx : y ≠ x := fun h => hxy h.symm
      simp only [chars_le, if_neg hxy, decide_eq_true_eq] at h1
      simp only [chars_le, if_neg hyx, decide_eq_true_eq] at h2
      omega

instance : IsTotal String str_le_rel := ⟨fun a b => chars_le_total a.data b.data⟩

instance : IsTrans String str_le_rel := ⟨fun a b c => chars_le_trans a.data b.data c.data⟩

instance : IsAntisymm String str_le_rel :=
  ⟨fun a b h1 h2 => String.ext (chars_le_antisymm a.data b.data h1 h2)⟩

/-- Python `sorted` on strings: the sorted permutation of the input under the
code-point order (any sorting algorithm yields the same list, since equal
strings are identical). -/
def py_sorted (l : List String) : List String := List.insertionSort str_le_rel l

/-- Python `set(groups) == group_set` (`bot.py:445`): the two label lists
denote the same set of strings. -/
def seteq (a b : List String) : Bool :=
  a.all (fun x => b.elem x) && b.all (fun x => a.elem x)

/-- The function `get_union_name` (`bot.py:439-447`): an empty label list
yields the empty string; otherwise the first entry of the global
`GROUP_UNIONS` whose label set equals the input set gives the canonical name;
on a miss, the input labels are sorted and joined with `'-'`.  The
`group_unions` parameter is unused exactly as in the source, which iterates
over the global dictionary. -/
def get_union_name (group_list : List String)
    (group_unions : List (String × List String)) : String :=
  if group_list = [] then ""
  else
    match GROUP_UNIONS.find? (fun e => seteq e.2 group_list) with
    | some e => e.1
    | none => String.intercalate "-" (py_sorted group_list)

lemma find?_pred_congr {α : Type} (p q : α → Bool) :
    ∀ l : List α, (∀ x ∈ l, p x = q x) → l.find? p = l.find? q
  | [], _ => rfl
  | x :: xs, h => by
    have hx := h x (List.mem_cons_self x xs)
    simp only [List.find?]
    rw [hx]
    cases q x with
    | true => rfl
    | false => exact find?_pred_congr p q xs fun y hy => h y (List.mem_cons_of_mem _ hy)

lemma seteq_perm_right {l1 l2 : List String} (h : l1.Perm l2) (m : List String) :
    seteq m l1 = seteq m l2 := by
  rw [Bool.eq_iff_iff]
  simp only [seteq, Bool.and_eq_true, List.all_eq_true, List.elem_iff]
  constructor <;> rintro ⟨ha, hb⟩
  · exact ⟨fun x hx => h.mem_iff.mp (ha x hx), fun x hx => hb x (h.mem_iff.mpr hx)⟩
  · exact ⟨fun x hx => h.mem_iff.mpr (ha x hx), fun x hx => hb x (h.mem_iff.mp hx)⟩

lemma py_sorted_perm_eq {l1 l2 : List String} (h : l1.Perm l2) :
    py_sorted l1 = py_sorted l2 :=
  @List.eq_of_perm_of_sorted String str_le_rel _ _ _
    ((List.perm_insertionSort str_le_rel l1).trans
      (h.trans (List.perm_insertionSort str_le_rel l2).symm))
    (List.sorted_insertionSort str_le_rel l1)
    (List.sorted_insertionSort str_le_rel l2)

lemma gu_vals_ne_nil : ∀ e ∈ GROUP_UNIONS, e.2 ≠ [] := by decide

/-- C4: the Group Union Resolver is total and deterministic.  Permuting the
input labels never changes the result; when the input set equals the raw-label
set of some `GROUP_UNIONS` entry the result is that entry's canonical name;
otherwise the result is the labels sorted by code point and joined with `'-'`;
and the specification's concrete examples hold, including
`resolve({"101","999"}) = "101-999"`. -/
theorem C4_union_resolver :
    (∀ l1 l2 : List String, l1.Perm l2 →
      get_union_name l1 GROUP_UNIONS = get_union_name l2 GROUP_UNIONS) ∧
    (∀ l : List String, (∃ e ∈ GROUP_UNIONS, seteq e.2 l = true) →
      ∃ e ∈ GROUP_UNIONS, seteq e.2 l = true ∧
        get_union_name l GROUP_UNIONS = e.1) ∧
    (∀ l : List String, l ≠ [] → (∀ e ∈ GROUP_UNIONS, seteq e.2 l = false) →
      get_union_name l GROUP_UNIONS = String.intercalate "-" (py_sorted l)) ∧
    get_union_name ["101", "102"] GROUP_UNIONS = "101-102" ∧
    get_union_name ["102", "101"] GROUP_UNIONS = "101-102" ∧
    get_union_name ["101", "999"] GROUP_UNIONS = "101-999" := by
  refine ⟨?_, ?_, ?_, by decide, by decide, by decide⟩
  · intro l1 l2 h
    by_cases h1 : l1 = []
    · subst h1
      have h2 : l2 = [] := h.symm.eq_nil
      simp [get_union_name, h2]
    · have h2 : l2 ≠ [] := fun he => h1 (by subst he; exact h.eq_nil)
      unfold get_union_name
      rw [if_neg h1, if_neg h2]
      have hfind : GROUP_UNIONS.find? (fun e => seteq e.2 l1) =
          GROUP_UNIONS.find? (fun e => seteq e.2 l2) :=
        find?_pred_congr _ _ _ fun e _ => seteq_perm_right h e.2
      rw [hfind]
      cases hf : GROUP_UNIONS.find? (fun e => seteq e.2 l2) with
      | some e => rfl
      | none => rw [py_sorted_perm_eq h]
  · rintro l ⟨e0, he0, hs0⟩
    have hne : l ≠ [] := by
      have hv := gu_vals_ne_nil e0 he0
      cases hv2 : e0.2 with
      | nil => exact absurd hv2 hv
      | cons v vs =>
        rw [hv2] at hs0
        simp only [seteq, Bool.and_eq_true, List.all_eq_true, List.elem_iff] at hs0
        have : v ∈ l := hs0.1 v (List.mem_cons_self v vs)
        exact List.ne_nil_of_mem this
    have hsome : (GROUP_UNIONS.find? (fun e => seteq e.2 l)).isSome := by
      rw [List.find?_isSome]
      exact ⟨e0, he0, hs0⟩
    obtain ⟨e, he⟩ := Option.isSome_iff_exists.mp hsome
    refine ⟨e, @List.mem_of_find?_eq_some _ (fun e => seteq e.2 l) e GROUP_UNIONS he,
      @List.find?_some _ (fun e => seteq e.2 l) e GROUP_UNIONS he, ?_⟩
    unfold get_union_name
    rw [if_neg hne, he]
  · intro l hne hmiss
    have hnone : GROUP_UNIONS.find? (fun e => seteq e.2 l) = none := by
      rw [List.find?_eq_none]
      intro e he
      rw [hmiss e he]
      simp
    unfold get_union_name
    rw [if_neg hne, hnone]

/-- C4 (witness). -/
theorem C4_union_resolver_witness :
    get_union_name ["102", "101"] GROUP_UNIONS =
      get_union_name ["101", "102"] GROUP_UNIONS ∧
    ∃ e ∈ GROUP_UNIONS, seteq e.2 ["101", "102"] = true ∧
      get_union_name ["101", "102"] GROUP_UNIONS = e.1 :=
  ⟨C4_union_resolver.1 _ _ (by decide),
   C4_union_resolver.2.1 _ ⟨("101-102", ["101", "102"]), by decide, by decide⟩⟩

/-- C7 (counterexample): the configured `GROUP_UNIONS` is not injective on
raw-label sets: the two distinct canonical names `"201-206"` and
`"201-202-203-204-205-206"` map to the same raw-label set
`{"201","202","203","204","205","206"}`. -/
theorem C7_union_table_counterexample :
    ("201-206", ["201", "202", "203", "204", "205", "206"]) ∈ GROUP_UNIONS ∧
    ("201-202-203-204-205-206",
      ["201", "202", "203", "204", "205", "206"]) ∈ GROUP_UNIONS ∧
    ("201-206" : String) ≠ "201-202-203-204-205-206" ∧
    seteq ["201", "202", "203", "204", "205", "206"]
      ["201", "202", "203", "204", "205", "206"] = true := by
  decide

set_option maxHeartbeats 2000000 in
/-- C7 (amended): the table is injective on raw-label sets except for exactly
one collision: any two entries with equal raw-label sets have the same
canonical name, unless they are the pair `"201-206"` /
`"201-202-203-204-205-206"`, which share the set
`{"201","202","203","204","205","206"}`. -/
theorem C7_union_table_amended :
    ∀ e1 ∈ GROUP_UNIONS, ∀ e2 ∈ GROUP_UNIONS, seteq e1.2 e2.2 = true →
      e1.1 = e2.1 ∨
      (e1.1 = "201-206" ∧ e2.1 = "201-202-203-204-205-206") ∨
      (e1.1 = "201-202-203-204-205-206" ∧ e2.1 = "201-206") := by
  decide

/-- C7 (witness). -/
theorem C7_union_table_witness :
    ("201-206" : String) = "201-202-203-204-205-206" ∨
    (("201-206" : String) = "201-206" ∧
      ("201-202-203-204-205-206" : String) = "201-202-203-204-205-206") ∨
    (("201-206" : String) = "201-202-203-204-205-206" ∧
      ("201-202-203-204-205-206" : String) = "201-206") :=
  C7_union_table_amended
    ("201-206", ["201", "202", "203", "204", "205", "206"]) (by decide)
    ("201-202-203-204-205-206", ["201", "202", "203", "204", "205", "206"])
    (by decide) (by decide)

/-- A merged rectangular region of a worksheet, with inclusive bounds;
`(minRow, minCol)` is the anchor (top-left) cell. -/
structure MergeRegion where
  minRow : Nat
  maxRow : Nat
  minCol : Nat
  maxCol : Nat
deriving DecidableEq, Repr

/-- A loaded worksheet: the stored value of every cell (for a merged region,
the value stored at its anchor), the sheet's merged regions, and openpyxl's
`max_column`. -/
structure Sheet where
  val : Nat → Nat → Option String
  merged : List MergeRegion
  max_column : Nat

/-- Containment of a cell in a merged region. -/
def inRegion (m : MergeRegion) (r c : Nat) : Bool :=
  decide (m.minRow ≤ r ∧ r ≤ m.maxRow ∧ m.minCol ≤ c ∧ c ≤ m.maxCol)

/-- The merged region a cell belongs to, if any (`cell.is_merged` /
`cell.merge_area` in the source). -/
def regionAt (ws : Sheet) (r c : Nat) : Option MergeRegion :=
  ws.merged.find? (fun m => inRegion m r c)

/-- openpyxl `ws.cell(row, col).value`: a non-anchor cell of a merged region
reads as `None`; any other cell yields its stored value. -/
def cellValue (ws : Sheet) (r c : Nat) : Option String :=
  match regionAt ws r c with
  | some m => if r = m.minRow ∧ c = m.minCol then ws.val r c else none
  | none => ws.val r c

/-- Python `value or "JOQ"` on a cell read (`bot.py:471, 482-484`): a blank
(`None` or empty) cell becomes the `"JOQ"` sentinel. -/
def orJOQ (v : Option String) : String :=
  if v.getD "" = "" then "JOQ" else v.getD ""

/-- Containment of one character list in another as a contiguous substring
(Python `in` on strings). -/
def substring_check (needle haystack : List Char) : Bool :=
  haystack.tails.any (fun t => needle.isPrefixOf t)

/-- The cleaning step of `contains_teacher_name` (`bot.py:423-424`):
`''.join(s.strip().split())` removes every whitespace character, and
`.replace('.', '')` then removes every period. -/
def clean_name (s : String) : String :=
  String.mk ((s.data.filter (fun c => !c.isWhitespace)).filter (fun c => c != '.'))

/-- Python `str.lower()`, character-wise. -/
def py_lower (s : String) : String := String.mk (s.data.map Char.toLower)

/-- `contains_teacher_name` (`bot.py:419-425`): an empty (or `None`) cell
never matches; otherwise the cleaned, lowered teacher name must occur as a
substring of the cleaned, lowered cell text. -/
def contains_teacher_name (cell_value teacher_name : String) : Bool :=
  if cell_value = "" then false
  else
    substring_check (py_lower (clean_name teacher_name)).data
      (py_lower (clean_name cell_value)).data

/-- ASCII punctuation characters (including the comma, hyphen and period),
for the specification's notion of stripping punctuation. -/
def PUNCTUATION_CHARS : List Char :=
  ['!', '\"', '#', '$', '%', '&', '(', ')', '*', '+', ',', '-', '.', '/',
   ':', ';', '<', '=', '>', '?', '@', '[', ']', '^', '_', '~']

/-- Normalisation as the specification words it: strip whitespace and
punctuation from the string and lowercase it.  Used only to compare the
specified matcher with the implemented one. -/
def spec_normalize (s : String) : String :=
  String.mk ((s.data.filter
    (fun c => !(c.isWhitespace || PUNCTUATION_CHARS.elem c))).map Char.toLower)

/-- The teacher-matching test as the specification states it: the normalized
teacher name occurs as a substring of the normalized cell text. -/
def spec_contains_teacher_name (cell_value teacher_name : String) : Bool :=
  substring_check (spec_normalize teacher_name).data (spec_normalize cell_value).data

/-- Normalisation the code actually implements: remove whitespace and period
characters only, then lowercase. -/
def norm_ws_dot (s : String) : String :=
  String.mk (s.data.filterMap (fun c =>
    if c.isWhitespace || c == '.' then none else some c.toLower))

lemma filter_filter_map_eq_filterMap {α β : Type} (p q : α → Bool) (f : α → β) :
    ∀ l : List α, ((l.filter p).filter q).map f =
      l.filterMap (fun c => if p c && q c then some (f c) else none)
  | [] => rfl
  | c :: cs => by
    cases hp : p c <;> cases hq : q c <;>
      simp [-List.filter_filter, List.filter_cons, List.filterMap_cons, hp, hq,
        filter_filter_map_eq_filterMap p q f cs]

lemma clean_lower_eq (s : String) : py_lower (clean_name s) = norm_ws_dot s := by
  unfold py_lower clean_name norm_ws_dot
  congr 1
  show ((s.data.filter fun c => !c.isWhitespace).filter fun c => c != '.').map
      Char.toLower = _
  rw [filter_filter_map_eq_filterMap]
  congr 1
  funext c
  rcases hd : c == '.' with - | -
  · rw [beq_eq_false_iff_ne] at hd
    cases hw : c.isWhitespace <;> simp [hw, hd]
  · rw [beq_iff_eq] at hd
    cases hw : c.isWhitespace <;> simp [hw, hd]

/-- C6 (counterexample): the code strips only periods, not punctuation in
general.  For the cell text `"Tajieva, A"` and roster name `"Tajieva A"` the
specified matcher (whitespace and punctuation stripped from both sides)
matches, but `contains_teacher_name` does not, because the comma survives
the code's cleaning. -/
theorem C6_teacher_match_counterexample :
    contains_teacher_name "Tajieva, A" "Tajieva A" = false ∧
    spec_contains_teacher_name "Tajieva, A" "Tajieva A" = true := by
  decide

/-- C6 (amended): teacher matching is the normalized substring test in which
normalisation removes whitespace and period characters only (other
punctuation is retained) and lowercases both sides, and an empty cell never
matches; the specification's example pair "Tajieva A." / "tajieva a" does
match. -/
theorem C6_teacher_match_amended :
    (∀ cell_value teacher_name : String,
      contains_teacher_name cell_value teacher_name = true ↔
        (cell_value ≠ "" ∧
          substring_check (norm_ws_dot teacher_name).data
            (norm_ws_dot cell_value).data = true)) ∧
    contains_teacher_name "tajieva a" "Tajieva A." = true := by
  constructor
  · intro cell_value teacher_name
    unfold contains_teacher_name
    by_cases hc : cell_value = ""
    · simp [hc]
    · rw [if_neg hc, clean_lower_eq, clean_lower_eq]
      exact ⟨fun h => ⟨hc, h⟩, fun h => h.2⟩
  · decide

/-- `GROUP_COLUMNS_FIRST_COURSE` (`bot.py:57`). -/
def GROUP_COLUMNS_FIRST_COURSE : List Nat :=
  [4, 6, 8, 10, 12, 14, 16, 18, 20, 22, 24, 26, 28]

/-- `GROUP_COLUMNS_SECOND_COURSE` (`bot.py:58`). -/
def GROUP_COLUMNS_SECOND_COURSE : List Nat :=
  [33, 35, 37, 39, 41, 43, 45, 47, 49, 51, 56, 58, 60, 62, 67, 69, 71, 73,
   75, 77, 79, 81, 83, 85, 87]

/-- `DAY_RANGES` (`bot.py:61`): the source stores the strings `"5-16"`,
`"18-29"`, ..., split at `'-'` into inclusive (start, end) row pairs at the
top of `process_course`. -/
def DAY_RANGES : List (Nat × Nat) :=
  [(5, 16), (18, 29), (31, 42), (44, 55), (57, 68), (70, 81)]

/-- `DAY_NAMES` (`bot.py:62`). -/
def DAY_NAMES : List String :=
  ["DUYSEMBI", "SIYSHEMBI", "SARSHEMBI", "PIYSHEMBI", "JUMA", "SHEMBI"]

/-- `get_group_list` (`bot.py:427-437`): walk the merged block's column span
from its anchor column to its last column; every spanned configured group
column whose label cell in row 3 is non-blank contributes its label.  The
source tests column membership in the string-keyed dictionary built by
`create_column_set`; this is list membership over the column numbers. -/
def get_group_list (ws : Sheet) (m : MergeRegion) (group_col_set : List Nat) :
    List String :=
  (List.range' m.minCol (m.maxCol + 1 - m.minCol)).filterMap (fun col =>
    if col ∈ group_col_set then
      if (cellValue ws 3 col).getD "" = "" then none
      else some ((cellValue ws 3 col).getD "")
    else none)

/-- The forward scan inside `get_audience` (`bot.py:455-459`): for each group
column greater than `last_col`, read the cell one column to its right; stop
at the first non-blank value, else yield the empty string. -/
def audience_scan (ws : Sheet) (row last_col : Nat) : List Nat → String
  | [] => ""
  | col :: rest =>
    if last_col < col then
      if (cellValue ws row (col + 1)).getD "" = "" then
        audience_scan ws row last_col rest
      else (cellValue ws row (col + 1)).getD ""
    else audience_scan ws row last_col rest

/-- `get_audience` (`bot.py:449-460`): read the cell just right of the
block's last column (when within `max_column`); if blank, scan the group
columns beyond the block for the first non-blank right-neighbour; if
everything is blank, the `"JOQ"` sentinel. -/
def get_audience (ws : Sheet) (row last_col : Nat) (group_columns : List Nat) :
    String :=
  if (if last_col + 1 ≤ ws.max_column
      then (cellValue ws row (last_col + 1)).getD "" else "") = "" then
    if audience_scan ws row last_col group_columns = "" then "JOQ"
    else audience_scan ws row last_col group_columns
  else (cellValue ws row (last_col + 1)).getD ""

/-- The body of the inner column loop of `process_course` (`bot.py:473-493`)
for one candidate column: the cell one row below the slot row must be merged,
the probed column must be the anchor column of its region
(`col == merge_area[0][0].column`), and the cell text must be non-blank and
contain the teacher's name; then one record is emitted, with the subject read
at the slot row in the anchor column and the room looked up right of the
block's last column `minCol + width - 1`. -/
def process_col (ws : Sheet) (teacher_name : String) (group_columns : List Nat)
    (day time : String) (row col : Nat) : Option ScheduleRecord :=
  match regionAt ws (row + 1) col with
  | none => none
  | some m =>
    if col = m.minCol then
      if (cellValue ws (row + 1) col).getD "" ≠ "" ∧
          contains_teacher_name ((cellValue ws (row + 1) col).getD "")
            teacher_name = true then
        some { Kun := day, Jupliq := time,
               Topar := get_union_name (get_group_list ws m group_columns)
                 GROUP_UNIONS,
               Pan := orJOQ (cellValue ws row m.minCol),
               Oqitiwshi := teacher_name,
               Kabinet := get_audience ws row
                 (m.minCol + (m.maxCol + 1 - m.minCol) - 1) group_columns }
      else none
    else none

/-- One slot row of `process_course` (`bot.py:470-493`): the slot label is
read from the time column (sentinel if blank) and the column loop runs over
the group columns. -/
def process_row (ws : Sheet) (teacher_name : String) (group_columns : List Nat)
    (time_column : Nat) (day : String) (row : Nat) : List ScheduleRecord :=
  group_columns.filterMap (fun col =>
    process_col ws teacher_name group_columns day
      (orJOQ (cellValue ws row time_column)) row col)

/-- `process_course` (`bot.py:462-493`): for each day range and each row of
it, process the row; records accumulate in loop order. -/
def process_course (ws : Sheet) (teacher_name : String)
    (group_columns : List Nat) (time_column : Nat) : List ScheduleRecord :=
  (DAY_RANGES.zip DAY_NAMES).flatMap (fun p =>
    (List.range' p.1.1 (p.1.2 + 1 - p.1.1)).flatMap (fun row =>
      process_row ws teacher_name group_columns time_column p.2 row))

lemma process_col_anchor {ws : Sheet} {teacher : String} {cols : List Nat}
    {day time : String} {row col : Nat} {m : MergeRegion}
    (hsome : (process_col ws teacher cols day time row col).isSome = true)
    (hreg : regionAt ws (row + 1) col = some m) : col = m.minCol := by
  by_cases h : col = m.minCol
  · exact h
  · exfalso
    have hnone : process_col ws teacher cols day time row col = none := by
      unfold process_col
      rw [hreg]
      exact if_neg h
    rw [hnone] at hsome
    simp at hsome

/-- C5: within one teacher / day / slot-row pass of the extractor, each
merged region yields at most one record: among the group columns, at most one
column can both lie in a given merged region (at the probed
teaching-assignment row) and produce a record, because a record is produced
only when the probed column is that region's anchor column. -/
theorem C5_merge_anchor_uniqueness (ws : Sheet) (teacher : String)
    (cols : List Nat) (day time : String) (row : Nat) (m : MergeRegion)
    (h : cols.Nodup) :
    cols.countP (fun col =>
      (process_col ws teacher cols day time row col).isSome &&
      decide (regionAt ws (row + 1) col = some m)) ≤ 1 := by
  have hmono : cols.countP (fun col =>
      (process_col ws teacher cols day time row col).isSome &&
      decide (regionAt ws (row + 1) col = some m)) ≤
      cols.countP (fun col => col == m.minCol) := by
    apply List.countP_mono_left
    intro col hcol hp
    rw [Bool.and_eq_true, decide_eq_true_eq] at hp
    exact beq_iff_eq.mpr (process_col_anchor hp.1 hp.2)
  have hcount : cols.countP (fun col => col == m.minCol) = cols.count m.minCol :=
    (List.count_eq_countP m.minCol cols).symm
  have hle : cols.count m.minCol ≤ 1 := List.nodup_iff_count_le_one.mp h m.minCol
  omega

/-- The single merged region of the worked example: row 6, columns 4-5. -/
def example_region : MergeRegion := ⟨6, 6, 4, 5⟩

/-- A concrete worksheet: one merged block anchored at row 6, column 4 (the
teaching-assignment row below slot row 5 of day `DUYSEMBI`), holding the text
`"Tajieva A"`; every other cell, including the group-label row 3, is
blank. -/
def example_sheet : Sheet :=
  { val := fun r c => if r = 6 ∧ c = 4 then some "Tajieva A" else none,
    merged := [example_region],
    max_column := 0 }

/-- The single record the extractor emits on `example_sheet`. -/
def example_record : ScheduleRecord :=
  { Kun := "DUYSEMBI", Jupliq := "JOQ", Topar := "", Pan := "JOQ",
    Oqitiwshi := "Tajieva A", Kabinet := "JOQ" }

/-- C5 (witness). -/
theorem C5_merge_anchor_uniqueness_witness :
    GROUP_COLUMNS_FIRST_COURSE.countP (fun col =>
      (process_col example_sheet "Tajieva A" GROUP_COLUMNS_FIRST_COURSE
        "DUYSEMBI" "JOQ" 5 col).isSome &&
      decide (regionAt example_sheet (5 + 1) col = some example_region)) ≤ 1 :=
  C5_merge_anchor_uniqueness example_sheet "Tajieva A"
    GROUP_COLUMNS_FIRST_COURSE "DUYSEMBI" "JOQ" 5 example_region (by decide)

/-- A field value that is either the `"JOQ"` sentinel or genuine non-blank
cell content of the sheet; in both cases non-empty. -/
def sentinel_or_text (ws : Sheet) (s : String) : Prop :=
  s ≠ "" ∧ (s = "JOQ" ∨ ∃ r c, cellValue ws r c = some s)

lemma orJOQ_cell_spec (ws : Sheet) (r c : Nat) :
    sentinel_or_text ws (orJOQ (cellValue ws r c)) := by
  unfold sentinel_or_text orJOQ
  cases hv : cellValue ws r c with
  | none => simp
  | some s =>
    by_cases hs : s = ""
    · subst hs; simp
    · simp only [Option.getD_some, if_neg hs]
      exact ⟨hs, Or.inr ⟨r, c, hv⟩⟩

lemma audience_scan_spec (ws : Sheet) (row last_col : Nat) :
    ∀ cols : List Nat, audience_scan ws row last_col cols = "" ∨
      sentinel_or_text ws (audience_scan ws row last_col cols)
  | [] => Or.inl rfl
  | col :: rest => by
    unfold audience_scan
    by_cases hgt : last_col < col
    · rw [if_pos hgt]
      by_cases hb : (cellValue ws row (col + 1)).getD "" = ""
      · rw [if_pos hb]
        exact audience_scan_spec ws row last_col rest
      · rw [if_neg hb]
        refine Or.inr ⟨hb, Or.inr ⟨row, col + 1, ?_⟩⟩
        cases hv : cellValue ws row (col + 1) with
        | none => rw [hv] at hb; simp at hb
        | some s => rfl
    · rw [if_neg hgt]
      exact audience_scan_spec ws row last_col rest

lemma get_audience_spec (ws : Sheet) (row last_col : Nat) (cols : List Nat) :
    sentinel_or_text ws (get_audience ws row last_col cols) := by
  unfold get_audience
  by_cases h1 : (if last_col + 1 ≤ ws.max_column
      then (cellValue ws row (last_col + 1)).getD "" else "") = ""
  · rw [if_pos h1]
    rcases audience_scan_spec ws row last_col cols with h | h
    · rw [if_pos h]
      exact ⟨by decide, Or.inl rfl⟩
    · rw [if_neg h.1]
      exact h
  · rw [if_neg h1]
    by_cases hle : last_col + 1 ≤ ws.max_column
    · rw [if_pos hle] at h1
      refine ⟨h1, Or.inr ⟨row, last_col + 1, ?_⟩⟩
      cases hv : cellValue ws row (last_col + 1) with
      | none => rw [hv] at h1; simp at h1
      | some s => rfl
    · rw [if_neg hle] at h1
      exact absurd rfl h1

/-- C9: every record `process_course` emits is fully populated: the teacher
field is the probed roster name, the day field is one of the six day names,
and each of the slot, subject and room fields is a non-empty string that is
either the `"JOQ"` sentinel (substituted for a blank source cell) or the
non-blank content of an actual sheet cell — never empty or undefined. -/
theorem C9_sentinel_totality (ws : Sheet) (teacher : String) (cols : List Nat)
    (tcol : Nat) :
    ∀ rec ∈ process_course ws teacher cols tcol,
      rec.Oqitiwshi = teacher ∧ rec.Kun ∈ DAY_NAMES ∧
      sentinel_or_text ws rec.Jupliq ∧ sentinel_or_text ws rec.Pan ∧
      sentinel_or_text ws rec.Kabinet := by
  intro rec hrec
  unfold process_course at hrec
  rw [List.mem_flatMap] at hrec
  obtain ⟨p, hp, hrec⟩ := hrec
  obtain ⟨dr, day⟩ := p
  rw [List.mem_flatMap] at hrec
  obtain ⟨row, hrow, hrec⟩ := hrec
  unfold process_row at hrec
  rw [List.mem_filterMap] at hrec
  obtain ⟨col, hcol, hpc⟩ := hrec
  unfold process_col at hpc
  split at hpc
  · exact Option.noConfusion hpc
  · split at hpc
    · split at hpc
      · obtain rfl := Option.some_inj.mp hpc
        refine ⟨rfl, ?_, ?_, ?_, ?_⟩
        · exact (List.of_mem_zip hp).2
        · exact orJOQ_cell_spec ws row tcol
        · exact orJOQ_cell_spec ws row _
        · exact get_audience_spec ws row _ cols
      · exact Option.noConfusion hpc
    · exact Option.noConfusion hpc

/-- C9 (witness). -/
theorem C9_sentinel_totality_witness :
    example_record.Oqitiwshi = "Tajieva A" ∧ example_record.Kun ∈ DAY_NAMES ∧
    sentinel_or_text example_sheet example_record.Jupliq ∧
    sentinel_or_text example_sheet example_record.Pan ∧
    sentinel_or_text example_sheet example_record.Kabinet :=
  C9_sentinel_totality example_sheet "Tajieva A" GROUP_COLUMNS_FIRST_COURSE 3
    example_record (by decide)

/-- C10: resolving the empty raw-label set yields the empty string, not the
`"JOQ"` sentinel, and on the worked example — a matched merged block whose
spanned group columns carry no labels — the extractor emits exactly one
record whose group field is the empty string. -/
theorem C10_empty_group_resolution :
    get_union_name [] GROUP_UNIONS = "" ∧
    ("" : String) ≠ "JOQ" ∧
    process_course example_sheet "Tajieva A" GROUP_COLUMNS_FIRST_COURSE 3 =
      [example_record] := by
  refine ⟨rfl, by decide, by decide⟩

/-- Per-user state (`UserData`, `bot.py:313-318`): role (`"Oqıtıwshı"` or
`"Student"` once chosen), teacher name and group (present once registered),
and the notification flag. -/
structure UserData where
  role : Option String
  teacher_name : Option String
  group : Option String
  notifications : Bool
deriving DecidableEq, Repr

/-- Python `x in affected_set` for an optional field: `None` is never a
member of a set of strings. -/
def opt_mem (x : Option String) (l : List String) : Bool :=
  match x with
  | some s => l.elem s
  | none => false

/-- Dictionary lookup `GROUP_UNIONS[g]` guarded by `g in GROUP_UNIONS`
(`bot.py:947-948`); an unset or unknown group yields nothing. -/
def lookup_union (g : Option String) : Option (List String) :=
  match g with
  | some s => (GROUP_UNIONS.find? (fun e => e.1 == s)).map (fun e => e.2)
  | none => none

/-- The per-user loop of the change-notification branch of `notify_users`
(`bot.py:934-955`), accumulating the ordered list of notified user ids: a
user is skipped when unsubscribed and not an admin, or already notified; a
teacher is notified when the stored teacher name is among the affected
teachers; a student whose group is a key of `GROUP_UNIONS` is notified when
any raw label of that union is among the affected groups. -/
def notify_loop (affT affG : List String) (allowed : List Nat) :
    List (Nat × UserData) → List Nat → List Nat
  | [], acc => acc
  | (user_id, ud) :: rest, acc =>
    if ud.notifications = false ∧ user_id ∉ allowed then
      notify_loop affT affG allowed rest acc
    else if user_id ∈ acc then
      notify_loop affT affG allowed rest acc
    else if ud.role = some "Oqıtıwshı" ∧ opt_mem ud.teacher_name affT = true then
      notify_loop affT affG allowed rest (acc ++ [user_id])
    else if ud.role = some "Student" ∧ (lookup_union ud.group).isSome = true then
      if ((lookup_union ud.group).getD []).any (fun g => affG.elem g) = true then
        notify_loop affT affG allowed rest (acc ++ [user_id])
      else notify_loop affT affG allowed rest acc
    else notify_loop affT affG allowed rest acc

/-- The change-notification targeting of `notify_users` (`bot.py:934-961`):
run the per-user loop over the directory, then, when the uploader is
privileged and not already notified, notify the uploader last. -/
def notify_targets (users : List (Nat × UserData)) (affT affG : List String)
    (allowed : List Nat) (uploader : Nat) : List Nat :=
  if uploader ∈ allowed ∧ uploader ∉ notify_loop affT affG allowed users [] then
    notify_loop affT affG allowed users [] ++ [uploader]
  else notify_loop affT affG allowed users []

/-- The role/identity matching condition of the targeting claim: a teacher
whose stored identity is among the affected teachers, or a student some raw
label of whose group's union is among the affected groups. -/
def targets_cond (ud : UserData) (affT affG : List String) : Prop :=
  (ud.role = some "Oqıtıwshı" ∧ ∃ t, ud.teacher_name = some t ∧ t ∈ affT) ∨
  (ud.role = some "Student" ∧ ∃ labels, lookup_union ud.group = some labels ∧
    ∃ g ∈ labels, g ∈ affG)

/-- A user the loop notifies: subscribed or privileged, and matching. -/
def step_sends (uid : Nat) (ud : UserData) (affT affG : List String)
    (allowed : List Nat) : Prop :=
  (ud.notifications = true ∨ uid ∈ allowed) ∧ targets_cond ud affT affG

lemma targets_cond_iff (ud : UserData) (affT affG : List String) :
    targets_cond ud affT affG ↔
      ((ud.role = some "Oqıtıwshı" ∧ opt_mem ud.teacher_name affT = true) ∨
       (ud.role = some "Student" ∧ (lookup_union ud.group).isSome = true ∧
         ((lookup_union ud.group).getD []).any (fun g => affG.elem g) = true)) := by
  unfold targets_cond
  constructor
  · rintro (⟨hr, t, ht, hm⟩ | ⟨hr, labels, hl, g, hg, hgm⟩)
    · left
      refine ⟨hr, ?_⟩
      rw [ht]
      simpa [opt_mem, List.elem_iff] using hm
    · right
      refine ⟨hr, by simp [hl], ?_⟩
      rw [hl]
      simp only [Option.getD_some, List.any_eq_true, List.elem_iff]
      exact ⟨g, hg, hgm⟩
  · rintro (⟨hr, hm⟩ | ⟨hr, hsome, hany⟩)
    · left
      refine ⟨hr, ?_⟩
      cases ht : ud.teacher_name with
      | none => rw [ht] at hm; simp [opt_mem] at hm
      | some t =>
        rw [ht] at hm
        simp only [opt_mem, List.elem_iff] at hm
        exact ⟨t, rfl, hm⟩
    · right
      refine ⟨hr, ?_⟩
      cases hl : lookup_union ud.group with
      | none => rw [hl] at hsome; simp at hsome
      | some labels =>
        rw [hl] at hany
        simp only [Option.getD_some, List.any_eq_true, List.elem_iff] at hany
        obtain ⟨g, hg, hgm⟩ := hany
        exact ⟨labels, rfl, g, hg, hgm⟩

lemma loop_step_not_send {affT affG : List String} {allowed : List Nat}
    {rest : List (Nat × UserData)} {acc : List Nat} {uid u : Nat} {d : UserData}
    (IHa : uid ∈ notify_loop affT affG allowed rest acc ↔
      uid ∈ acc ∨ ∃ ud, (uid, ud) ∈ rest ∧ step_sends uid ud affT affG allowed)
    (hnot : ¬ step_sends u d affT affG allowed) :
    uid ∈ notify_loop affT affG allowed rest acc ↔
      uid ∈ acc ∨ ∃ ud, (uid, ud) ∈ (u, d) :: rest ∧
        step_sends uid ud affT affG allowed := by
  rw [IHa]
  constructor
  · rintro (h | ⟨ud, hm, hsend⟩)
    · exact Or.inl h
    · exact Or.inr ⟨ud, List.mem_cons_of_mem _ hm, hsend⟩
  · rintro (h | ⟨ud, hm, hsend⟩)
    · exact Or.inl h
    · rcases List.mem_cons.mp hm with heq | hm2
      · injection heq with huid hud
        subst huid
        subst hud
        exact absurd hsend hnot
      · exact Or.inr ⟨ud, hm2, hsend⟩

lemma loop_step_send {affT affG : List String} {allowed : List Nat}
    {rest : List (Nat × UserData)} {acc : List Nat} {uid u : Nat} {d : UserData}
    (IHb : uid ∈ notify_loop affT affG allowed rest (acc ++ [u]) ↔
      uid ∈ acc ++ [u] ∨ ∃ ud, (uid, ud) ∈ rest ∧
        step_sends uid ud affT affG allowed)
    (hsend_u : step_sends u d affT affG allowed) :
    uid ∈ notify_loop affT affG allowed rest (acc ++ [u]) ↔
      uid ∈ acc ∨ ∃ ud, (uid, ud) ∈ (u, d) :: rest ∧
        step_sends uid ud affT affG allowed := by
  rw [IHb]
  constructor
  · rintro (h | ⟨ud, hm, hsend⟩)
    · rcases List.mem_append.mp h with h | h
      · exact Or.inl h
      · rw [List.mem_singleton] at h
        subst h
        exact Or.inr ⟨d, List.mem_cons_self _ _, hsend_u⟩
    · exact Or.inr ⟨ud, List.mem_cons_of_mem _ hm, hsend⟩
  · rintro (h | ⟨ud, hm, hsend⟩)
    · exact Or.inl (List.mem_append.mpr (Or.inl h))
    · rcases List.mem_cons.mp hm with heq | hm2
      · injection heq with huid hud
        subst huid
        exact Or.inl (List.mem_append.mpr (Or.inr (List.mem_singleton.mpr rfl)))
      · exact Or.inr ⟨ud, hm2, hsend⟩

lemma notify_loop_mem (affT affG : List String) (allowed : List Nat) :
    ∀ (users : List (Nat × UserData)) (acc : List Nat) (uid : Nat),
      (users.map Prod.fst).Nodup → (∀ p ∈ users, p.1 ∉ acc) →
      (uid ∈ notify_loop affT affG allowed users acc ↔
        uid ∈ acc ∨ ∃ ud, (uid, ud) ∈ users ∧ step_sends uid ud affT affG allowed)
  | [], acc, uid, _, _ => by simp [notify_loop]
  | (u, d) :: rest, acc, uid, hnd, hacc => by
    have hu : u ∉ acc := hacc (u, d) (List.mem_cons_self _ _)
    have hacc1 : ∀ p ∈ rest, p.1 ∉ acc := fun p hp =>
      hacc p (List.mem_cons_of_mem _ hp)
    rw [List.map_cons, List.nodup_cons] at hnd
    obtain ⟨hd1, hnd1⟩ := hnd
    have hne_u : ∀ ud2 : UserData, (u, ud2) ∈ rest → False := fun ud2 hmem =>
      hd1 (List.mem_map.mpr ⟨(u, ud2), hmem, rfl⟩)
    have hacc2 : ∀ p ∈ rest, p.1 ∉ acc ++ [u] := by
      intro p hp hmem
      rcases List.mem_append.mp hmem with h | h
      · exact hacc1 p hp h
      · rw [List.mem_singleton] at h
        refine hne_u p.2 ?_
        rw [← h]
        simpa using hp
    have IHa := notify_loop_mem affT affG allowed rest acc uid hnd1 hacc1
    have IHb := notify_loop_mem affT affG allowed rest (acc ++ [u]) uid hnd1 hacc2
    simp only [notify_loop]
    by_cases hA : d.notifications = false ∧ u ∉ allowed
    · rw [if_pos hA]
      refine loop_step_not_send IHa ?_
      intro hsend
      rcases hsend.1 with hbt | hal
      · rw [hA.1] at hbt
        exact absurd hbt (by simp)
      · exact absurd hal hA.2
    · have hsub : d.notifications = true ∨ u ∈ allowed := by
        rcases not_and_or.mp hA with h | h
        · cases hb : d.notifications with
          | false => exact absurd hb h
          | true => exact Or.inl rfl
        · exact Or.inr (not_not.mp h)
      rw [if_neg hA, if_neg hu]
      by_cases hC : d.role = some "Oqıtıwshı" ∧ opt_mem d.teacher_name affT = true
      · rw [if_pos hC]
        exact loop_step_send IHb
          ⟨hsub, (targets_cond_iff d affT affG).mpr (Or.inl hC)⟩
      · rw [if_neg hC]
        by_cases hD : d.role = some "Student" ∧ (lookup_union d.group).isSome = true
        · rw [if_pos hD]
          by_cases hE :
              ((lookup_union d.group).getD []).any (fun g => affG.elem g) = true
          · rw [if_pos hE]
            exact loop_step_send IHb
              ⟨hsub, (targets_cond_iff d affT affG).mpr (Or.inr ⟨hD.1, hD.2, hE⟩)⟩
          · rw [if_neg hE]
            refine loop_step_not_send IHa ?_
            intro hsend
            rcases (targets_cond_iff d affT affG).mp hsend.2 with hT | hS
            · exact hC hT
            · exact hE hS.2.2
        · rw [if_neg hD]
          refine loop_step_not_send IHa ?_
          intro hsend
          rcases (targets_cond_iff d affT affG).mp hsend.2 with hT | hS
          · exact hC hT
          · exact hD ⟨hS.1, hS.2.1⟩

lemma notify_loop_nodup (affT affG : List String) (allowed : List Nat) :
    ∀ (users : List (Nat × UserData)) (acc : List Nat),
      acc.Nodup → (notify_loop affT affG allowed users acc).Nodup
  | [], acc, ha => by simpa [notify_loop] using ha
  | (u, d) :: rest, acc, ha => by
    simp only [notify_loop]
    by_cases hA : d.notifications = false ∧ u ∉ allowed
    · rw [if_pos hA]
      exact notify_loop_nodup affT affG allowed rest acc ha
    · rw [if_neg hA]
      by_cases hB : u ∈ acc
      · rw [if_pos hB]
        exact notify_loop_nodup affT affG allowed rest acc ha
      · rw [if_neg hB]
        have ha2 : (acc ++ [u]).Nodup := by
          simp [List.nodup_append, ha, hB]
        by_cases hC : d.role = some "Oqıtıwshı" ∧ opt_mem d.teacher_name affT = true
        · rw [if_pos hC]
          exact notify_loop_nodup affT affG allowed rest (acc ++ [u]) ha2
        · rw [if_neg hC]
          by_cases hD : d.role = some "Student" ∧ (lookup_union d.group).isSome = true
          · rw [if_pos hD]
            by_cases hE :
                ((lookup_union d.group).getD []).any (fun g => affG.elem g) = true
            · rw [if_pos hE]
              exact notify_loop_nodup affT affG allowed rest (acc ++ [u]) ha2
            · rw [if_neg hE]
              exact notify_loop_nodup affT affG allowed rest acc ha
          · rw [if_neg hD]
            exact notify_loop_nodup affT affG allowed rest acc ha

lemma key_unique :
    ∀ {users : List (Nat × UserData)}, (users.map Prod.fst).Nodup →
      ∀ {uid : Nat} {ud1 ud2 : UserData},
        (uid, ud1) ∈ users → (uid, ud2) ∈ users → ud1 = ud2 := by
  intro users
  induction users with
  | nil =>
    intro _ _ _ _ h
    cases h
  | cons p rest ih =>
    intro hnd uid ud1 ud2 h1 h2
    rw [List.map_cons, List.nodup_cons] at hnd
    rcases List.mem_cons.mp h1 with h1 | h1 <;> rcases List.mem_cons.mp h2 with h2 | h2
    · rw [← h1] at h2
      injection h2 with _ h
      exact h.symm
    · exfalso
      apply hnd.1
      rw [← h1]
      exact List.mem_map.mpr ⟨(uid, ud2), h2, rfl⟩
    · exfalso
      apply hnd.1
      rw [← h2]
      exact List.mem_map.mpr ⟨(uid, ud1), h1, rfl⟩
    · exact ih hnd.2 h1 h2

/-- C3: change-notification targeting.  For any directory with distinct user
ids (a Python dict), affected sets, admin list and uploader: (1) a directory
user is notified by the per-user loop iff they are subscribed or an admin,
and either their role is teacher and their teacher identity is among the
affected teachers, or their role is student and some raw label of their
group's union is among the affected groups; (2) the resulting target list
contains each user id at most once; (3) a privileged uploader not notified by
the loop is appended last. -/
theorem C3_notification_targeting (users : List (Nat × UserData))
    (affT affG : List String) (allowed : List Nat) (uploader : Nat)
    (hkeys : (users.map Prod.fst).Nodup) :
    (∀ uid ud, (uid, ud) ∈ users →
      (uid ∈ notify_loop affT affG allowed users [] ↔
        (ud.notifications = true ∨ uid ∈ allowed) ∧
          targets_cond ud affT affG)) ∧
    (notify_targets users affT affG allowed uploader).Nodup ∧
    (uploader ∈ allowed → uploader ∉ notify_loop affT affG allowed users [] →
      notify_targets users affT affG allowed uploader =
        notify_loop affT affG allowed users [] ++ [uploader]) := by
  refine ⟨?_, ?_, ?_⟩
  · intro uid ud hmem
    rw [notify_loop_mem affT affG allowed users [] uid hkeys (by simp)]
    constructor
    · rintro (h | ⟨ud2, hm2, hsend⟩)
      · cases h
      · rwa [key_unique hkeys hmem hm2]
    · intro h
      exact Or.inr ⟨ud, hmem, h⟩
  · unfold notify_targets
    split_ifs with h
    · simp only [List.nodup_append, List.nodup_cons, List.nodup_nil,
        List.disjoint_singleton]
      exact ⟨notify_loop_nodup affT affG allowed users [] List.nodup_nil,
        ⟨List.not_mem_nil _, trivial⟩, h.2⟩
    · exact notify_loop_nodup affT affG allowed users [] List.nodup_nil
  · intro h1 h2
    unfold notify_targets
    rw [if_pos ⟨h1, h2⟩]

/-- An example teacher profile for the targeting witness. -/
def example_teacher_user : UserData :=
  { role := some "Oqıtıwshı", teacher_name := some "Tajieva A",
    group := none, notifications := true }

/-- An example student profile for the targeting witness. -/
def example_student_user : UserData :=
  { role := some "Student", teacher_name := none,
    group := some "101", notifications := true }

/-- An example directory for the targeting witness. -/
def example_directory : List (Nat × UserData) :=
  [(1, example_teacher_user), (2, example_student_user)]

/-- C3 (witness). -/
theorem C3_notification_targeting_witness :
    1 ∈ notify_loop ["Tajieva A"] [] [] example_directory [] ↔
      (example_teacher_user.notifications = true ∨ (1 : Nat) ∈ ([] : List Nat)) ∧
      targets_cond example_teacher_user ["Tajieva A"] [] :=
  (C3_notification_targeting example_directory ["Tajieva A"] [] [] 0
    (by decide)).1 1 example_teacher_user (by decide)
